import Mathlib

/-!
Shallow embedding of the SNAFU runtime-support library (src/src/lib.rs).

The embedded parts are:
* `Context` (the context-pair value, lib.rs:210-215);
* the four `ResultExt` combinators (`context`, `with_context`, `eager_context`,
  `with_eager_context`, lib.rs:306-311, 347-353, 356-370), with `From`/`Into`
  conversions modelled as an explicit function argument and `FnOnce` closures as
  plain functions (plus a state-passing translation for observing invocations);
* the default implementation of the `ErrorCompat` backtrace accessor
  (lib.rs:387-393);
* the backtrace rendering subsystem (`impl fmt::Display for Backtrace`,
  `SymbolDisplay`, `SymbolNameDisplay`, `SymbolLocationDisplay`,
  lib.rs:424-487), modelled as a function from the frame list to the list of
  rendered lines (one list element per `writeln!`).  The index column width is
  computed in the source with `f32` floating-point arithmetic
  (`(frames.len() as f32).log10().floor() as usize + 1`, lib.rs:427); it is kept
  as an explicit `Nat` parameter of the renderer here.
-/

namespace Snafu

/-- Rust `Result<T, E>` (std), the receiver type of the `ResultExt` impl. -/
inductive Result (T E : Type) where
  | ok (value : T)
  | err (error : E)

/-- `Result::map_err`: applies `f` on the error arm, passes the success arm through. -/
def Result.map_err {T E E2 : Type} (r : Result T E) (f : E → E2) : Result T E2 :=
  match r with
  | .ok v => .ok v
  | .err e => .err (f e)

/-- `snafu::Context` (lib.rs:210-215): a combination of an underlying error and
additional information about the error. -/
structure Context (E C : Type) where
  error : E
  context : C

/-- `ResultExt::context` for `Result` (lib.rs:357-359):
`self.map_err(|error| Context { error, context })`. -/
def context {T E C : Type} (r : Result T E) (ctx : C) : Result T (Context E C) :=
  r.map_err (fun error => Context.mk error ctx)

/-- `ResultExt::with_context` for `Result` (lib.rs:361-369):
`self.map_err(|error| { let context = context(); Context { error, context } })`,
with the `FnOnce() -> C` closure modelled as a pure function on `Unit`. -/
def with_context {T E C : Type} (r : Result T E) (f : Unit → C) : Result T (Context E C) :=
  r.map_err (fun error => Context.mk error (f ()))

/-- State-passing translation of `with_context` (lib.rs:361-369) in which the
`FnOnce() -> C` closure may carry a side effect on a state `σ`: the closure is a
function `σ → C × σ`, and `map_err` calls it exactly where the source does —
once inside the error arm, never on the success arm.  Instantiating `σ` with a
call counter makes the laziness of the source observable. -/
def withContextS {T E C σ : Type} (r : Result T E) (f : σ → C × σ) (s : σ) :
    Result T (Context E C) × σ :=
  match r with
  | .ok v => (.ok v, s)
  | .err e =>
    let p := f s
    (.err (Context.mk e p.1), p.2)

/-- `ResultExt::eager_context` (default method, lib.rs:306-311):
`self.context(context).map_err(Into::into)`, with the `E2: From<Context<E, C>>`
conversion modelled as the explicit function `fromCtx`. -/
def eager_context {T E C E2 : Type} (r : Result T E) (ctx : C)
    (fromCtx : Context E C → E2) : Result T E2 :=
  (context r ctx).map_err fromCtx

/-- `ResultExt::with_eager_context` (default method, lib.rs:347-353):
`self.with_context(context).map_err(Into::into)`. -/
def with_eager_context {T E C E2 : Type} (r : Result T E) (f : Unit → C)
    (fromCtx : Context E C → E2) : Result T E2 :=
  (with_context r f).map_err fromCtx

/-- A resolved backtrace symbol (`backtrace::BacktraceSymbol`), restricted to
the accessors the rendering code uses: `name()`, `filename()`, `lineno()`. -/
structure BacktraceSymbol where
  name : Option String
  filename : Option String
  lineno : Option Nat

/-- A backtrace frame (`backtrace::BacktraceFrame`): zero or more resolved symbols. -/
structure BacktraceFrame where
  symbols : List BacktraceSymbol

/-- `snafu::Backtrace` (lib.rs:405): a captured frame sequence. -/
structure Backtrace where
  frames : List BacktraceFrame

/-- `SymbolNameDisplay` (lib.rs:463-474): the symbol's resolved name when
present, the literal `"<unknown>"` otherwise. -/
def symbolNameDisplay (s : BacktraceSymbol) : String :=
  match s.name with
  | some n => n
  | none => "<unknown>"

/-- `SymbolLocationDisplay` (lib.rs:476-487): writes the file path, then `":{l}"`
exactly when a line number `l` is present (on `None` the source writes nothing
more). -/
def symbolLocationDisplay (s : BacktraceSymbol) (f : String) : String :=
  match s.lineno with
  | some l => f ++ ":" ++ toString l
  | none => f

/-- `SymbolDisplay::location` (lib.rs:458-460):
`self.0.filename().map(|f| SymbolLocationDisplay(self.0, f))`. -/
def symbolLocation (s : BacktraceSymbol) : Option String :=
  s.filename.map (fun f => symbolLocationDisplay s f)

/-- The index field of a continuation or location line: `{index:width$}` with
`index = ""`; a `&str` is padded with spaces to the minimum width. -/
def blankField (width : Nat) : String :=
  String.mk (List.replicate width ' ')

/-- The index field of a frame's first name line: `{index:width$}` with a
numeric `index`; integers are right-aligned, padded with spaces to the minimum
width (no truncation when the digits exceed the width). -/
def padIndex (width index : Nat) : String :=
  String.mk (List.replicate (width - (toString index).length) ' ') ++ toString index

/-- The lines `writeln!` produces for one symbol (lib.rs:433-435 for the first
symbol, lib.rs:439-441 for the rest): a name line with the given index field,
then a location line with a blank index field exactly when the symbol has a
location. -/
def symbolEntry (width : Nat) (idxField : String) (s : BacktraceSymbol) : List String :=
  (idxField ++ " " ++ symbolNameDisplay s) ::
    (match symbolLocation s with
     | some loc => [blankField width ++ " " ++ loc]
     | none => [])

/-- The inner `for symbol in symbols` loop (lib.rs:438-443): every remaining
symbol's lines use a blank index field. -/
def contLines (width : Nat) : List BacktraceSymbol → List String
  | [] => []
  | s :: rest => symbolEntry width (blankField width) s ++ contLines width rest

/-- The body of the outer loop for one frame (lib.rs:430-444): nothing when the
frame has no resolved symbols; otherwise the first symbol's lines with the
numeric index, then the continuation lines. -/
def frameLines (width index : Nat) : List BacktraceSymbol → List String
  | [] => []
  | s :: rest => symbolEntry width (padIndex width index) s ++ contLines width rest

/-- The outer `for (index, frame) in frames.iter().enumerate()` loop
(lib.rs:429-445), carrying the running frame index. -/
def renderFrames (width : Nat) : Nat → List BacktraceFrame → List String
  | _, [] => []
  | index, frame :: rest =>
    frameLines width index frame.symbols ++ renderFrames width (index + 1) rest

/-- `impl fmt::Display for Backtrace` (lib.rs:424-448), as the list of rendered
lines.  The source computes `width` from `frames.len()` with `f32` arithmetic
(lib.rs:427); the width is taken as a parameter here. -/
def renderBacktrace (width : Nat) (bt : Backtrace) : List String :=
  renderFrames width 0 bt.frames

/-- The default implementation of `ErrorCompat::backtrace` (lib.rs:390-392):
`None`, for every receiver. -/
def ErrorCompat.backtraceDefault {α β : Type} (_e : α) : Option β :=
  none

/-- Modelled from the spec: the `Snafu` derive macro (crate `snafu_derive`, not
under src/) generates, per final-error taxonomy, an `ErrorCompat` impl whose
backtrace accessor returns the `Trace` field's captured value for a variant
that carries one; a variant without a `Trace` field is served by the default
implementation (lib.rs:390-392), which returns none.  A generated error value
is abstracted to whether its variant carries a `Trace` field. -/
inductive GeneratedVariant (β : Type) where
  | traced (bt : β)
  | untraced

/-- Modelled from the spec: the generated uniform backtrace accessor — the
captured value exactly when the variant carries a `Trace` field, otherwise the
default `ErrorCompat` implementation. -/
def GeneratedVariant.backtrace {β : Type} : GeneratedVariant β → Option β
  | .traced bt => some bt
  | .untraced => ErrorCompat.backtraceDefault (GeneratedVariant.untraced : GeneratedVariant β)

theorem renderFrames_append (width : Nat) (xs ys : List BacktraceFrame) :
    ∀ i : Nat, renderFrames width i (xs ++ ys) =
      renderFrames width i xs ++ renderFrames width (i + xs.length) ys := by
  induction xs with
  | nil => intro i; simp [renderFrames]
  | cons x xs ih =>
    intro i
    have h : i + 1 + xs.length = i + (xs.length + 1) := by omega
    simp only [List.cons_append, renderFrames, List.length_cons, List.append_assoc,
      List.append_eq, ih (i + 1), h]

theorem symbolEntry_length (width : Nat) (idxField : String) (s : BacktraceSymbol) :
    (symbolEntry width idxField s).length =
      1 + (if (symbolLocation s).isSome then 1 else 0) := by
  unfold symbolEntry
  cases h : symbolLocation s <;> simp [h]

theorem contLines_length (width : Nat) (l : List BacktraceSymbol) :
    (contLines width l).length =
      l.length + l.countP (fun r => (symbolLocation r).isSome) := by
  induction l with
  | nil => simp [contLines]
  | cons a l ih =>
    simp only [contLines, List.length_append, symbolEntry_length, ih,
      List.length_cons, List.countP_cons]
    cases h : (symbolLocation a).isSome <;> simp [h] <;> omega

/-- Claim C1: `context(ctx)` passes a success value through untouched, and wraps
an error `e` as exactly `Context { error := e, context := ctx }`, with the
underlying error preserved unchanged. -/
theorem context_spec {T E C : Type} (v : T) (e : E) (ctx : C) :
    context (Result.ok v : Result T E) ctx = Result.ok v ∧
    context (Result.err e : Result T E) ctx = Result.err (Context.mk e ctx) ∧
    (Context.mk e ctx).error = e := by
  exact ⟨rfl, rfl, rfl⟩

/-- Claim C2: `with_context` returns the success value unchanged independently
of the context function, wraps an error with the context the function produces,
and — in the state-passing translation, instrumented with a call counter —
invokes the context function exactly once on the error arm and not at all on
the success arm. -/
theorem with_context_lazy {T E C : Type} (v : T) (e : E) (f g : Unit → C)
    (mk : Nat → C) (n : Nat) :
    with_context (Result.ok v : Result T E) f = Result.ok v ∧
    with_context (Result.ok v : Result T E) f = with_context (Result.ok v : Result T E) g ∧
    with_context (Result.err e : Result T E) f = Result.err (Context.mk e (f ())) ∧
    (withContextS (Result.ok v : Result T E) (fun k => (mk k, k + 1)) n).2 = n ∧
    (withContextS (Result.err e : Result T E) (fun k => (mk k, k + 1)) n).2 = n + 1 ∧
    (withContextS (Result.err e : Result T E) (fun k => (mk k, k + 1)) n).1 =
      Result.err (Context.mk e (mk n)) := by
  exact ⟨rfl, rfl, rfl, rfl, rfl, rfl⟩

/-- Claim C3: all four `ResultExt` combinators are total — on every input they
return an ordinary `Result`, the error arm being a normal error value rather
than a secondary failure — and each maps `Ok v` to `Ok v` untouched. -/
theorem combinators_total {T E C E2 : Type} (v : T) (e : E) (ctx : C)
    (f : Unit → C) (fromCtx : Context E C → E2) :
    context (Result.ok v : Result T E) ctx = Result.ok v ∧
    with_context (Result.ok v : Result T E) f = Result.ok v ∧
    eager_context (Result.ok v : Result T E) ctx fromCtx = Result.ok v ∧
    with_eager_context (Result.ok v : Result T E) f fromCtx = Result.ok v ∧
    context (Result.err e : Result T E) ctx = Result.err (Context.mk e ctx) ∧
    with_context (Result.err e : Result T E) f = Result.err (Context.mk e (f ())) ∧
    eager_context (Result.err e : Result T E) ctx fromCtx =
      Result.err (fromCtx (Context.mk e ctx)) ∧
    with_eager_context (Result.err e : Result T E) f fromCtx =
      Result.err (fromCtx (Context.mk e (f ()))) := by
  exact ⟨rfl, rfl, rfl, rfl, rfl, rfl, rfl, rfl⟩

/-- Claim C4: on every input, `eager_context` equals `context` followed by the
`From` conversion on the error arm, and `with_eager_context` equals
`with_context` followed by the same conversion; the eager variants return the
fully converted result directly. -/
theorem eager_is_context_then_convert {T E C E2 : Type} (r : Result T E)
    (ctx : C) (f : Unit → C) (fromCtx : Context E C → E2) (v : T) (e : E) :
    eager_context r ctx fromCtx = (context r ctx).map_err fromCtx ∧
    with_eager_context r f fromCtx = (with_context r f).map_err fromCtx ∧
    eager_context (Result.ok v : Result T E) ctx fromCtx = Result.ok v ∧
    eager_context (Result.err e : Result T E) ctx fromCtx =
      Result.err (fromCtx (Context.mk e ctx)) ∧
    with_eager_context (Result.ok v : Result T E) f fromCtx = Result.ok v ∧
    with_eager_context (Result.err e : Result T E) f fromCtx =
      Result.err (fromCtx (Context.mk e (f ()))) := by
  exact ⟨rfl, rfl, rfl, rfl, rfl, rfl⟩

/-- Claim C6: a frame with zero resolved symbols contributes no rendered lines
at all, while its position still consumes a frame index — the frames after it
keep their absolute positions as indices (here `xs.length + 1` onward, not
`xs.length`). -/
theorem empty_frame_renders_nothing (width : Nat) (xs ys : List BacktraceFrame) :
    renderBacktrace width (Backtrace.mk (xs ++ BacktraceFrame.mk [] :: ys)) =
      renderFrames width 0 xs ++ renderFrames width (xs.length + 1) ys := by
  simp [renderBacktrace, renderFrames_append, renderFrames, frameLines]

/-- Claim C7: a frame with at least one resolved symbol renders exactly one name
line per symbol — the first carrying the padded numeric frame index, each
subsequent one a blank index field of the same width — each followed by a
location line (blank index field) exactly when that symbol has a source
location; in total one line per symbol plus one per symbol with a location. -/
theorem frame_symbol_lines (width index : Nat) (s : BacktraceSymbol)
    (rest : List BacktraceSymbol) :
    frameLines width index (s :: rest) =
      ((padIndex width index ++ " " ++ symbolNameDisplay s) ::
        (match symbolLocation s with
         | some loc => [blankField width ++ " " ++ loc]
         | none => [])) ++ contLines width rest ∧
    (∀ r l, contLines width (r :: l) =
      ((blankField width ++ " " ++ symbolNameDisplay r) ::
        (match symbolLocation r with
         | some loc => [blankField width ++ " " ++ loc]
         | none => [])) ++ contLines width l) ∧
    (frameLines width index (s :: rest)).length =
      (s :: rest).length + (s :: rest).countP (fun r => (symbolLocation r).isSome) := by
  refine ⟨rfl, fun r l => rfl, ?_⟩
  simp only [frameLines, List.length_append, symbolEntry_length, contLines_length,
    List.length_cons, List.countP_cons]
  cases h : (symbolLocation s).isSome <;> simp [h] <;> omega

/-- Claim C8: the backtrace accessor is uniform and optional — a variant
carrying a `Trace` field yields its captured backtrace, a variant without one
yields none, and the default `ErrorCompat` backtrace implementation returns
none for every error value. -/
theorem backtrace_accessor_optional {α β : Type} (bt : β) (x : α) :
    GeneratedVariant.backtrace (GeneratedVariant.traced bt) = some bt ∧
    GeneratedVariant.backtrace (GeneratedVariant.untraced : GeneratedVariant β) = none ∧
    (ErrorCompat.backtraceDefault x : Option β) = none := by
  exact ⟨rfl, rfl, rfl⟩

/-- Claim C9: the displayed symbol name is the resolved name when present and
the literal `"<unknown>"` otherwise; every symbol contributes its name line —
the head of its entry — and that line is never empty. -/
theorem symbol_name_display (nm : String) (fn : Option String) (ln : Option Nat)
    (width : Nat) (idxField : String) (s : BacktraceSymbol) :
    symbolNameDisplay (BacktraceSymbol.mk (some nm) fn ln) = nm ∧
    symbolNameDisplay (BacktraceSymbol.mk none fn ln) = "<unknown>" ∧
    (symbolEntry width idxField s).head? =
      some (idxField ++ " " ++ symbolNameDisplay s) ∧
    1 ≤ (idxField ++ " " ++ symbolNameDisplay s).length := by
  refine ⟨rfl, rfl, rfl, ?_⟩
  have h1 : (" ").length = 1 := rfl
  rw [String.length_append, String.length_append, h1]
  omega

/-- Claim C10: a source-location line value exists exactly when the symbol has a
file path; it renders the path, then a colon and the line number exactly when a
line number is present; a known line number without a file path yields no
location at all. -/
theorem symbol_location_display (nm : Option String) (f : String) (l : Nat) :
    symbolLocation (BacktraceSymbol.mk nm (some f) (some l)) =
      some (f ++ ":" ++ toString l) ∧
    symbolLocation (BacktraceSymbol.mk nm (some f) none) = some f ∧
    symbolLocation (BacktraceSymbol.mk nm none (some l)) = none ∧
    symbolLocation (BacktraceSymbol.mk nm none none) = none := by
  exact ⟨rfl, rfl, rfl, rfl⟩

end Snafu
